import Mathlib

/-
  Verification of the webpath HTTP toolkit (src/webpath/{core,_http,downloads}.py)
  against its natural-language specification.

  Shallow embedding conventions:
  * Parsed JSON values (the output of the Python json module) are the inductive
    type `Json` below; Python `None` is `Json.null`.
  * The external jmespath evaluator is a black box, modelled as an oracle
    `search : String → Json → Except Unit Json` (`.error` = the evaluator raised
    JMESPathError/ValueError, `.ok v` = it returned `v`, with `Json.null`
    standing for a returned Python `None`).
  * Python truthiness of JSON values is `pyTruthy`.
  * Machine I/O (the requests transport, the file system, wall-clock time,
    hashlib digests) is passed in explicitly as data; wall-clock instants and
    durations are rationals.
-/

namespace Webpath

/-! ## Basic Python-string helpers -/

/-- Parsed JSON values as produced by the Python json module; `null` is Python None. -/
inductive Json where
  | null
  | bool (b : Bool)
  | num (n : Int)
  | str (s : String)
  | arr (elems : List Json)
  | obj (fields : List (String × Json))

/-- Python truthiness of a parsed JSON value (`if not data: ...`). -/
def pyTruthy : Json → Bool
  | .null => false
  | .bool b => b
  | .num n => n != 0
  | .str s => s != ""
  | .arr xs => !xs.isEmpty
  | .obj fs => !fs.isEmpty

/-- Substring test on lists of characters: some suffix of `hay` has `needle` as a prefix. -/
def strContainsL (hay needle : List Char) : Bool :=
  (List.range (hay.length + 1)).any (fun i => needle.isPrefixOf (hay.drop i))

/-- Substring test on strings (Python `needle in hay`). -/
def strContains (hay needle : String) : Bool :=
  strContainsL hay.toList needle.toList

/-- Python `s.startswith(pre)`. -/
def strStartsWith (s pre : String) : Bool :=
  pre.toList.isPrefixOf s.toList

/-- Python `s.split(sep)` for a single-character separator, on char lists:
always at least one (possibly empty) part. -/
def splitOnCharL (sep : Char) : List Char → List (List Char)
  | [] => [[]]
  | c :: rest =>
    let r := splitOnCharL sep rest
    if c == sep then [] :: r
    else
      match r with
      | h :: t => (c :: h) :: t
      | [] => [[c]]

/-- Python `s.split(sep)` for a single-character separator. -/
def pySplit (s : String) (sep : Char) : List String :=
  (splitOnCharL sep s.toList).map String.mk

/-- Python `s.lower()` (per-character lowercasing; ASCII suffices for the
hostnames and hex digests this code compares). -/
def pyLower (s : String) : String :=
  String.mk (s.toList.map Char.toLower)

mutual

/-- Python `repr()` of a parsed-JSON value. -/
def pyReprJ : Json → String
  | .null => "None"
  | .bool true => "True"
  | .bool false => "False"
  | .num n => toString n
  | .str s => "\x27" ++ s ++ "\x27"
  | .arr xs => "[" ++ pyReprList xs ++ "]"
  | .obj fs => "\x7b" ++ pyReprFields fs ++ "\x7d"

def pyReprList : List Json → String
  | [] => ""
  | [v] => pyReprJ v
  | v :: rest => pyReprJ v ++ ", " ++ pyReprList rest

def pyReprFields : List (String × Json) → String
  | [] => ""
  | [(k, v)] => "\x27" ++ k ++ "\x27: " ++ pyReprJ v
  | (k, v) :: rest => "\x27" ++ k ++ "\x27: " ++ pyReprJ v ++ ", " ++ pyReprFields rest

end

/-- Python `str()` of a parsed-JSON value (used in f-string interpolation). -/
def pyStr : Json → String
  | .str s => s
  | v => pyReprJ v

/-! ## Response Navigator (`WebResponse.find` / `find_all` / `has_path`, src/webpath/_http.py) -/

/-- Core of `WebResponse.find` (src/webpath/_http.py lines 52-64): returns `none`
exactly in the branches where the Python code returns the caller-supplied
`default` (empty expression, falsy parsed data, evaluator exception, or a
result that `is None`), and `some v` when the evaluated result `v` is returned. -/
def findCore (search : String → Json → Except Unit Json) (json_data : Json)
    (expression : String) : Option Json :=
  if expression = "" then none
  else if !pyTruthy json_data then none
  else
    match search expression json_data with
    | .error _ => none
    | .ok Json.null => none
    | .ok result => some result

/-- `WebResponse.find(expression, default)` with a `Json` default. -/
def find (search : String → Json → Except Unit Json) (json_data : Json)
    (expression : String) (dflt : Json) : Json :=
  (findCore search json_data expression).getD dflt

/-- `WebResponse.find_all` (src/webpath/_http.py lines 66-68):
`result = self.find(expression, default=[])`;
`return result if isinstance(result, list) else [result] if result else []`.
The default `[]` is itself a list, so the `none` branch of `findCore` yields `[]`. -/
def find_all (search : String → Json → Except Unit Json) (json_data : Json)
    (expression : String) : List Json :=
  match findCore search json_data expression with
  | some (.arr xs) => xs
  | some v => if pyTruthy v then [v] else []
  | none => []

/-- A Python value as seen by the `is` operator in `has_path`: either a parsed
JSON value or a bare `object()` allocation, identified by its allocation id
(two separate `object()` calls always produce objects with distinct ids). -/
inductive PyVal where
  | js (v : Json)
  | sentinel (id : Nat)

/-- Python `x is <object with allocation id i>`: true only when `x` is that very
allocation; a JSON value is never identical to a fresh `object()`. -/
def PyVal.isAlloc (x : PyVal) (i : Nat) : Bool :=
  match x with
  | .sentinel j => j == i
  | .js _ => false

/-- `WebResponse.has_path` (src/webpath/_http.py lines 95-96):
`return self.find(expression, default=object()) is not object()`.
The default passed to `find` is one fresh allocation (`sentinel 0`) and the
right-hand side of `is not` is a second, distinct fresh allocation
(`sentinel 1`). -/
def has_path (search : String → Json → Except Unit Json) (json_data : Json)
    (expression : String) : Bool :=
  !((((findCore search json_data expression).map PyVal.js).getD
      (PyVal.sentinel 0)).isAlloc 1)

/-- A concrete instantiation of the jmespath oracle on identifier expressions:
top-level field lookup on an object, returning null (Python None) on no match,
as jmespath does for an unmatched identifier. -/
def identifierSearch : String → Json → Except Unit Json :=
  fun expr data =>
    match data with
    | .obj fields => .ok ((fields.lookup expr).getD .null)
    | _ => .ok .null

/-! ## Navigation operator (`WebResponse.__truediv__`, src/webpath/_http.py lines 157-181) -/

/-- A key passed to the navigation operator: a Python string or int. -/
inductive PyKey where
  | str (s : String)
  | int (i : Int)

/-- Decimal value of a digit list. -/
def digitsVal (cs : List Char) : Nat :=
  cs.foldl (fun a c => 10 * a + (c.toNat - 48)) 0

/-- Python `int(key)` on a string: optional sign followed by digits succeeds,
anything else raises ValueError (`none`).  (Python also tolerates surrounding
whitespace and inner underscores; those inputs do not occur in the claims.) -/
def pyParseInt (s : String) : Option Int :=
  match s.toList with
  | [] => none
  | '-' :: rest =>
    if !rest.isEmpty && rest.all (·.isDigit) then some (-(digitsVal rest : Int)) else none
  | '+' :: rest =>
    if !rest.isEmpty && rest.all (·.isDigit) then some (digitsVal rest : Int) else none
  | cs => if cs.all (·.isDigit) then some (digitsVal cs : Int) else none

/-- Python `int(key)`: ints pass through, strings are parsed. -/
def pyInt : PyKey → Option Int
  | .int i => some i
  | .str s => pyParseInt s

/-- Python list indexing `data[idx]` with negative-index support;
`none` = IndexError. -/
def pyIndex (xs : List Json) (i : Int) : Option Json :=
  if 0 ≤ i then xs.get? i.toNat
  else if (-i).toNat ≤ xs.length then xs.get? (xs.length - (-i).toNat) else none

/-- `urlparse(value).hostname` for a value starting with `http://` or
`https://`: the netloc runs to the first of `/?#`, userinfo before the last
`@` is dropped, a bracketed IPv6 literal keeps its inner text, otherwise the
part before the first `:` is taken; the result is lowercased, with the empty
host mapped to Python `None`. -/
def urlparse_hostname (u : String) : Option String :=
  let rest := if strStartsWith u "https://" then u.toList.drop 8 else u.toList.drop 7
  let netloc := rest.takeWhile (fun c => c != '/' && c != '?' && c != '#')
  let hostinfo := (netloc.reverse.takeWhile (· != '@')).reverse
  let host :=
    if hostinfo.contains '[' then
      ((hostinfo.dropWhile (· != '[')).drop 1).takeWhile (· != ']')
    else hostinfo.takeWhile (· != ':')
  let lower := host.map Char.toLower
  if lower.isEmpty then none else some (String.mk lower)

/-- `parsed.hostname in ('localhost', '127.0.0.1', '0.0.0.0', '::1')`;
a `None` hostname is in no tuple. -/
def hostnameIsLoopback (u : String) : Bool :=
  match urlparse_hostname u with
  | some h => h == "localhost" || h == "127.0.0.1" || h == "0.0.0.0" || h == "::1"
  | none => false

/-- Outcome of the navigation operator. -/
inductive NavResult where
  | value (v : Json)          -- the raw value is returned
  | followGet (url : String)  -- `WebPath(value).get()`: a new GET is issued to this URL
  | securityError             -- ValueError: cannot auto-follow localhost URLs
  | keyError                  -- KeyError

/-- `WebResponse.__truediv__` (src/webpath/_http.py lines 157-181).
Dictionary branch: an http(s) URL string is returned raw unless the owning
parent has `_allow_auto_follow`; a loopback hostname raises the security
error, otherwise the URL is fetched.  List branch: `int(key)` indexes the
list, and an http(s) URL string is fetched *unconditionally* - no auto-follow
flag check and no loopback check appear in the source. -/
def truediv (json_data : Json) (key : PyKey) (allow_auto_follow : Bool) : NavResult :=
  match json_data with
  | .obj fields =>
    match key with
    | .str s =>
      match fields.lookup s with
      | some (Json.str value) =>
        if strStartsWith value "http://" || strStartsWith value "https://" then
          if !allow_auto_follow then .value (Json.str value)
          else if hostnameIsLoopback value then .securityError
          else .followGet value
        else .value (Json.str value)
      | some value => .value value
      | none => .keyError
    | .int _ => .keyError
  | .arr xs =>
    match pyInt key with
    | some idx =>
      match pyIndex xs idx with
      | some (Json.str value) =>
        if strStartsWith value "http://" || strStartsWith value "https://" then
          .followGet value
        else .value (Json.str value)
      | some value => .value value
      | none => .keyError
    | none => .keyError
  | _ => .keyError

/-! ## Pagination Walker (`WebResponse.paginate`, src/webpath/_http.py lines 280-339) -/

/-- One fetched page: the response URL and its parsed JSON body. -/
structure Page where
  url : String
  json_data : Json

/-- `WebResponse._extract_nested_value` walk (src/webpath/_http.py lines
331-339): successive `current[part]` steps, where a missing dict key
(KeyError) or a non-dict current value (TypeError on `list[str]`/`str[str]`)
yields `None`. -/
def extractSteps : List String → Json → Option Json
  | [], current => some current
  | part :: rest, current =>
    match current with
    | .obj fields =>
      match fields.lookup part with
      | some v => extractSteps rest v
      | none => none
    | _ => none

/-- `WebResponse._extract_nested_value(data, path)`: split the path on `.` and
walk the parts. -/
def _extract_nested_value (data : Json) (path : String) : Option Json :=
  extractSteps (pySplit path '.') data

/-- The fixed priority order of conventional next-link keys
(src/webpath/_http.py lines 314-322). -/
def nextPatterns : List String :=
  ["next", "next_url", "nextUrl", "next_page", "links.next", "pagination.next",
   "_links.next.href"]

/-- The pattern loop of `_find_next_url`: the first pattern whose extracted
value is a truthy string starting with `http://` or `https://` wins. -/
def findNextFrom : List String → Json → Option String
  | [], _ => none
  | pattern :: rest, data =>
    match _extract_nested_value data pattern with
    | some (.str s) =>
      if s != "" && (strStartsWith s "http://" || strStartsWith s "https://") then some s
      else findNextFrom rest data
    | _ => findNextFrom rest data

/-- `WebResponse._find_next_url` (src/webpath/_http.py lines 309-329):
`None` for a non-dict body, else the pattern loop. -/
def _find_next_url (data : Json) : Option String :=
  match data with
  | .obj _ => findNextFrom nextPatterns data
  | _ => none

/-- The next-page URL computation inside `paginate` (lines 295-301): the
explicit `next_key` path if given (broken off unless the result is a truthy
string), otherwise `_find_next_url`. -/
def nextUrlOf (next_key : Option String) (page : Page) : Option String :=
  match next_key with
  | some k =>
    match _extract_nested_value page.json_data k with
    | some (.str s) => if s != "" then some s else none
    | _ => none
  | none => _find_next_url page.json_data

/-- `WebResponse.paginate` (src/webpath/_http.py lines 280-307) as the list of
pages the generator yields.  `fetch` models `WebPath(next_url).get()`, with
`none` standing for any exception during the continuation request (the
`except Exception: break`).  The fuel argument is `max_pages - page_count`. -/
def paginate (fetch : String → Option Page) (next_key : Option String) :
    Page → Nat → List String → List Page
  | _, 0, _ => []
  | current_page, fuel + 1, visited =>
    if current_page.url ∈ visited then []
    else
      current_page ::
        (match nextUrlOf next_key current_page with
         | none => []
         | some u =>
           match fetch u with
           | none => []
           | some p => paginate fetch next_key p fuel (current_page.url :: visited))

/-! ## Download Manager (`download_file`, src/webpath/downloads.py) -/

/-- Failure taxonomy of `download_file`. -/
inductive DlErr where
  | http (msg : String)                       -- http_request / raise_for_status raised
  | unknownAlgorithm                          -- hashlib.new(algorithm) raised ValueError
  | streamFailure                             -- exception while iterating or writing chunks
  | checksumMismatch (expected actual : String)

/-- The environment of one `download_file` call: the prior state of the
destination path and the behavior of the external transport and hash library. -/
structure DlEnv where
  pre : Option (List Nat)                  -- bytes at dest before the call, if the file exists
  http : Option String                     -- some msg = the request phase raised
  algKnown : Bool                          -- hashlib.new(algorithm) succeeds
  chunks : List (List Nat)                 -- blocks yielded by r.iter_content(chunk)
  streamOk : Bool                          -- iteration ran to completion without raising
  hexdigest : List (List Nat) → String     -- abstract hashlib hexdigest over the fed blocks

/-- The blocks actually written and hashed: `for block in r.iter_content(chunk):
if block: ...` skips falsy (empty) blocks. -/
def fedBlocks (chunks : List (List Nat)) : List (List Nat) :=
  chunks.filter (fun b => !b.isEmpty)

/-- `download_file` (src/webpath/downloads.py lines 7-58), as a function from
the call environment to (final bytes at dest, outcome).  The `except Exception`
handler (lines 44-47) runs `dest.unlink` whenever `dest.exists()`, so every
error branch leaves *no* file at dest - including errors raised before the
destination was opened (the request phase and `hashlib.new`), which delete a
pre-existing file.  After a complete stream, a supplied truthy checksum is
compared against the digest with `hasher.hexdigest() != checksum.lower()`;
a mismatch unlinks dest and raises naming expected vs. actual. -/
def download_file (env : DlEnv) (checksum : Option String) :
    Option (List Nat) × Except DlErr Unit :=
  match env.http with
  | some msg => (none, .error (.http msg))
  | none =>
    let wantHash := (checksum.getD "") != ""
    if wantHash && !env.algKnown then (none, .error .unknownAlgorithm)
    else if !env.streamOk then (none, .error .streamFailure)
    else
      let content := (fedBlocks env.chunks).flatten
      if wantHash then
        let dg := env.hexdigest (fedBlocks env.chunks)
        if dg != pyLower (checksum.getD "") then
          (none, .error (.checksumMismatch (checksum.getD "") dg))
        else (some content, .ok ())
      else (some content, .ok ())

/-! ## Request Executor (`http_request`, src/webpath/_http.py lines 389-458) -/

/-- A raw transport response (`requests` response object). -/
structure TResp where
  status : Nat
  headers : List (String × String)
  body : String
  jsonBody : Option Json    -- response.json(): none = parsing raised

/-- Transport-level failures surfaced by the requests library. -/
inductive TransportErr where
  | connection
  | timeout

/-- Modelled from the spec: a cache record as stored by `CacheConfig`
(webpath/cache.py, which is not under src/): "key = (method, canonical URL
string); value = {status code, headers, body bytes, captured URL, stored-at
timestamp}". -/
structure CacheEntry where
  status_code : Nat
  headers : List (String × String)
  content : String
  url : String
  stored_at : Rat

/-- The cache store: entries keyed by (method, canonical URL string). -/
abbrev CacheStore := List ((String × String) × CacheEntry)

/-- Modelled from the spec: the `CacheConfig` owned by a WebPath (webpath/cache.py,
absent from src/) carries the configured TTL. -/
structure CacheConfig where
  ttl : Rat

/-- Modelled from the spec: `CacheConfig.get(verb, url)` - "read before every
request, evicted when now - stored_at > TTL (lazy expiry checked at read
time)": an unexpired entry is returned, an expired or absent one is not. -/
def CacheConfig.get (cfg : CacheConfig) (store : CacheStore) (now : Rat)
    (verb url : String) : Option CacheEntry :=
  match store.lookup (verb, url) with
  | some e => if now - e.stored_at ≤ cfg.ttl then some e else none
  | none => none

/-- Modelled from the spec: `CacheConfig.set(verb, url, resp)` - "created on a
successful (2xx) response when a TTL is configured", keyed by (method,
canonical URL) with the capture timestamp. -/
def CacheConfig.set (store : CacheStore) (now : Rat) (verb url : String)
    (resp : TResp) : CacheStore :=
  ((verb, url), ⟨resp.status, resp.headers, resp.body, url, now⟩) :: store

/-- The `url` argument of `http_request`: a WebPath and the request-relevant
configuration attached to it (src/webpath/core.py `__slots__`). -/
structure UrlObj where
  scheme : String
  render : String                          -- str(url)
  hostname : String                        -- urlsplit(url_str).hostname
  cache_config : Option CacheConfig := none
  rate_limit : Option Rat := none
  last_request_time : Rat := 0
  enable_logging : Bool := false

/-- Observable side effects of one `http_request` call, in program order. -/
inductive Event where
  | transportCall                          -- the network request is performed
  | cacheWrite                             -- cache_config.set(verb, url_str, resp)
  | rateWait (d : Rat)                     -- time.sleep(min_interval - elapsed)
  | timestampUpdate                        -- url._last_request_time = time.time()
  | logLine                                -- console.print(...)
  deriving DecidableEq

/-- Failure taxonomy of `http_request`: ValueError for a non-http scheme,
built-in ConnectionError / TimeoutError for transport failures, HTTPError for
a 4xx/5xx status. -/
inductive HttpErr where
  | invalidScheme (msg : String)
  | connectionError (msg : String)
  | timeoutError (msg : String)
  | httpStatus (msg : String)

/-- What the returned WebResponse wraps: either the live response or a
reconstructed `CachedResponse`. -/
structure RespOut where
  status_code : Nat
  headers : List (String × String)
  content : String
  from_cache : Bool

/-- The complete outcome of one `http_request` call. -/
structure ReqOut where
  result : Except HttpErr RespOut
  store : CacheStore
  events : List Event
  last_request_time : Rat

/-- The keys probed for an error detail, in order (src/webpath/_http.py line 467). -/
def errorDetailKeys : List String := ["error", "message", "error_description", "detail"]

/-- The `for key in [...]` probe: first present key wins. -/
def firstDetail : List String → List (String × Json) → Option Json
  | [], _ => none
  | k :: rest, fields =>
    match fields.lookup k with
    | some v => some v
    | none => firstDetail rest fields

/-- The error_details extraction of `_get_helpful_error_message` (lines
464-472): only a JSON object body contributes a detail - for a list or string
body `key in data` may succeed but `data[key]` then raises TypeError, swallowed
by the bare except, and a failed `response.json()` likewise leaves it empty. -/
def errorDetails (jsonBody : Option Json) : String :=
  match jsonBody with
  | some (.obj fields) =>
    match firstDetail errorDetailKeys fields with
    | some v => " - " ++ pyStr v
    | none => ""
  | _ => ""

/-- `_get_helpful_error_message` (src/webpath/_http.py lines 460-486). -/
def _get_helpful_error_message (resp : TResp) (url hostname : String) : String :=
  let error_details := errorDetails resp.jsonBody
  if resp.status == 401 then
    "Authentication failed for " ++ hostname ++ error_details
      ++ ". Check your API credentials."
  else if resp.status == 403 then
    "Access forbidden to " ++ hostname ++ error_details
      ++ ". Check permissions or account status."
  else if resp.status == 404 then
    "Endpoint not found: " ++ url ++ error_details
  else if resp.status == 429 then
    let retry_after := (resp.headers.lookup "Retry-After").getD "unknown"
    "Rate limited by " ++ hostname ++ ". Retry after " ++ retry_after
      ++ " seconds" ++ error_details
  else if 500 ≤ resp.status then
    "Server error on " ++ hostname ++ error_details ++ ". Try again later."
  else
    "HTTP " ++ toString resp.status ++ " from " ++ hostname ++ error_details

/-- `http_request` (src/webpath/_http.py lines 389-458).  The transport
behavior for this call is the explicit `transport` argument; `now` is the
wall clock at the time the rate-limit block reads it.  Program order per the
source: scheme check, cache lookup (early return on hit), transport call,
transport-error translation, 4xx/5xx classification, cache write on 2xx,
rate-limit sleep and timestamp update, optional log line. -/
def http_request (verb : String) (url : UrlObj) (store : CacheStore)
    (transport : Except TransportErr TResp) (now : Rat) : ReqOut :=
  if url.scheme = "http" ∨ url.scheme = "https" then
    let cachedHit : Option CacheEntry :=
      match url.cache_config with
      | some cfg => cfg.get store now verb url.render
      | none => none
    match cachedHit with
    | some e =>
      ⟨.ok ⟨e.status_code, e.headers, e.content, true⟩, store, [],
       url.last_request_time⟩
    | none =>
      match transport with
      | .error .connection =>
        ⟨.error (.connectionError ("Failed to connect to " ++ url.render)),
         store, [.transportCall], url.last_request_time⟩
      | .error .timeout =>
        ⟨.error (.timeoutError ("Request to " ++ url.render ++ " timed out")),
         store, [.transportCall], url.last_request_time⟩
      | .ok resp =>
        if 400 ≤ resp.status ∧ resp.status < 600 then
          ⟨.error (.httpStatus (_get_helpful_error_message resp url.render url.hostname)),
           store, [.transportCall], url.last_request_time⟩
        else
          let cacheStep : CacheStore × List Event :=
            if url.cache_config.isSome ∧ 200 ≤ resp.status ∧ resp.status < 300 then
              (CacheConfig.set store now verb url.render resp, [Event.cacheWrite])
            else (store, [])
          let rateStep : List Event × Rat :=
            match url.rate_limit with
            | some rl =>
              if rl ≠ 0 then
                let min_interval := 1 / rl
                let elapsed := now - url.last_request_time
                if elapsed < min_interval then
                  ([Event.rateWait (min_interval - elapsed), Event.timestampUpdate],
                   now + (min_interval - elapsed))
                else ([Event.timestampUpdate], now)
              else ([], url.last_request_time)
            | none => ([], url.last_request_time)
          let logEvents := if url.enable_logging then [Event.logLine] else []
          ⟨.ok ⟨resp.status, resp.headers, resp.body, false⟩, cacheStep.1,
           [Event.transportCall] ++ cacheStep.2 ++ rateStep.1 ++ logEvents,
           rateStep.2⟩
  else
    ⟨.error (.invalidScheme (verb ++ " only valid for http/https URLs")),
     store, [], url.last_request_time⟩

/-- Does an event satisfying `p` occur strictly before one satisfying `q`? -/
def eventBefore (p q : Event → Bool) : List Event → Bool
  | [] => false
  | e :: rest => (p e && rest.any q) || eventBefore p q rest

def isTransportCall : Event → Bool
  | .transportCall => true
  | _ => false

def isRateWait : Event → Bool
  | .rateWait _ => true
  | _ => false

def isTimestampUpdate : Event → Bool
  | .timestampUpdate => true
  | _ => false

/-! ## URL Builder (`WebPath.__truediv__`, src/webpath/core.py lines 229-235) -/

/-- The always-safe characters of `urllib.parse.quote`: ASCII letters, digits,
and `_.-~`. -/
def quoteSafe (c : Char) : Bool :=
  c.isAlpha || c.isDigit || c == '_' || c == '.' || c == '-' || c == '~'

/-- Uppercase hex digit of a nibble. -/
def hexDigit (n : Nat) : Char :=
  if n < 10 then Char.ofNat (48 + n) else Char.ofNat (55 + n)

/-- UTF-8 encoding of a code point. -/
def utf8Bytes (n : Nat) : List Nat :=
  if n < 128 then [n]
  else if n < 2048 then [192 + n / 64, 128 + n % 64]
  else if n < 65536 then [224 + n / 4096, 128 + n / 64 % 64, 128 + n % 64]
  else [240 + n / 262144, 128 + n / 4096 % 64, 128 + n / 64 % 64, 128 + n % 64]

/-- `quote` on one character with the default `safe='/'`: safe characters and
`/` pass through, everything else is percent-encoded byte-wise. -/
def quoteChar (c : Char) : List Char :=
  if quoteSafe c || c == '/' then [c]
  else (utf8Bytes c.toNat).flatMap (fun b => ['%', hexDigit (b / 16), hexDigit (b % 16)])

def quoteL (l : List Char) : List Char := l.flatMap quoteChar

/-- `urllib.parse.quote(s)` with its default `safe='/'`. -/
def quote (s : String) : String := String.mk (quoteL s.toList)

def lstripSlashL (l : List Char) : List Char := l.dropWhile (· == '/')

def rstripSlashL (l : List Char) : List Char := (l.reverse.dropWhile (· == '/')).reverse

/-- Python `s.lstrip("/")`. -/
def lstripSlash (s : String) : String := String.mk (lstripSlashL s.toList)

/-- Python `s.rstrip("/")`. -/
def rstripSlash (s : String) : String := String.mk (rstripSlashL s.toList)

/-- `WebPath.__truediv__` (src/webpath/core.py lines 229-235), at the level of
the path component: `seg = quote(str(other).lstrip("/"))`, then
`new_path = self._parts.path.rstrip("/") + "/" + seg` when the current path is
nonempty, else `"/" + seg`.  (The quoted segment contains no `?` or `#`, both
of which are percent-encoded, so the path component survives the
urlunsplit/urlsplit round trip in `_replace` unchanged.) -/
def WebPath.truediv (path other : String) : String :=
  let seg := quote (lstripSlash other)
  if path ≠ "" then rstripSlash path ++ "/" ++ seg
  else "/" ++ seg

/-- A sequence of `join(segment)` calls starting from a base path. -/
def joinAll (path : String) (segments : List String) : String :=
  segments.foldl WebPath.truediv path

def headIsSlashL : List Char → Bool
  | [] => false
  | c :: _ => c == '/'

def lastIsSlashL (l : List Char) : Bool := headIsSlashL l.reverse

/-- Two adjacent slashes occur somewhere in the list. -/
def hasDoubleSlashL : List Char → Bool
  | a :: b :: rest => (a == '/' && b == '/') || hasDoubleSlashL (b :: rest)
  | _ => false

/-- Two adjacent slashes occur somewhere in the string. -/
def hasDoubleSlash (s : String) : Bool := hasDoubleSlashL s.toList

/-- Components joined with single slashes. -/
def joinSlash : List String → String
  | [] => ""
  | [s] => s
  | s :: rest => s ++ "/" ++ joinSlash rest

/-!
# Theorems
-/

/-! ### C7: has_path -/

/-- C7: the claim says `has_path(path)` is true iff `find` with a unique
sentinel default returns something other than that sentinel, hence false for
empty/absent/null-valued paths.  The code compares against a *fresh* `object()`
allocation, distinct both from the sentinel it passed as default and from any
JSON value, so `has_path` returns `true` for every response and every path
expression whatsoever. -/
theorem has_path_always_true (search : String → Json → Except Unit Json)
    (json_data : Json) (expression : String) :
    has_path search json_data expression = true := by
  unfold has_path
  cases h : findCore search json_data expression <;> simp [PyVal.isAlloc]

/-! ### C8: find_all -/

/-- C8 counterexample: on the response body `{"a": 0}` the path `a` produces
the scalar `0`, but `find_all` returns the empty list, not the single-element
list `[0]` the claim requires (Python `0` is falsy, and the code wraps the
result only when it is truthy). -/
theorem find_all_falsy_scalar_counterexample :
    find_all identifierSearch (Json.obj [("a", Json.num 0)]) "a" = [] ∧
      find_all identifierSearch (Json.obj [("a", Json.num 0)]) "a" ≠ [Json.num 0] := by
  constructor
  · rfl
  · intro h
    have h' : ([] : List Json) = [Json.num 0] := h
    exact List.noConfusion h'

/-- C8 amended: `find_all` always returns a list; a list result of the path
evaluation is returned as-is, a *truthy* non-list result is wrapped in a
single-element list, and everything else - a falsy scalar result (null, false,
0, the empty string), an evaluator error, an empty path expression, or falsy
parsed data - yields the empty list. -/
theorem find_all_spec (search : String → Json → Except Unit Json)
    (json_data : Json) (expression : String) :
    (expression = "" → find_all search json_data expression = []) ∧
    (pyTruthy json_data = false → find_all search json_data expression = []) ∧
    (∀ e, expression ≠ "" → pyTruthy json_data = true →
      search expression json_data = .error e →
      find_all search json_data expression = []) ∧
    (∀ xs, expression ≠ "" → pyTruthy json_data = true →
      search expression json_data = .ok (Json.arr xs) →
      find_all search json_data expression = xs) ∧
    (∀ v, expression ≠ "" → pyTruthy json_data = true →
      search expression json_data = .ok v →
      (∀ ys, v ≠ Json.arr ys) → pyTruthy v = true →
      find_all search json_data expression = [v]) ∧
    (∀ v, expression ≠ "" → pyTruthy json_data = true →
      search expression json_data = .ok v →
      (∀ ys, v ≠ Json.arr ys) → pyTruthy v = false →
      find_all search json_data expression = []) := by
  refine ⟨?_, ?_, ?_, ?_, ?_, ?_⟩
  · intro h; simp [find_all, findCore, h]
  · intro h; simp [find_all, findCore, h]
  · intro e he hd hs; simp [find_all, findCore, he, hd, hs]
  · intro xs he hd hs; simp [find_all, findCore, he, hd, hs]
  · intro v he hd hs hnl htr
    cases v with
    | arr ys => exact absurd rfl (hnl ys)
    | null => simp [pyTruthy] at htr
    | bool b => simp [find_all, findCore, he, hd, hs, htr]
    | num n => simp [find_all, findCore, he, hd, hs, htr]
    | str s => simp [find_all, findCore, he, hd, hs, htr]
    | obj fs => simp [find_all, findCore, he, hd, hs, htr]
  · intro v he hd hs hnl hfl
    cases v with
    | arr ys => exact absurd rfl (hnl ys)
    | null => simp [find_all, findCore, he, hd, hs]
    | bool b => simp [find_all, findCore, he, hd, hs, hfl]
    | num n => simp [find_all, findCore, he, hd, hs, hfl]
    | str s => simp [find_all, findCore, he, hd, hs, hfl]
    | obj fs => simp [find_all, findCore, he, hd, hs, hfl]

/-- C8 amended, witness: concrete evaluation of two branches - `{"a": [1]}` at
path `a` returns `[1]` as-is, and a truthy scalar at `{"b": 7}` path `b`
returns `[7]`. -/
theorem find_all_spec_witness :
    find_all identifierSearch (Json.obj [("a", Json.arr [Json.num 1])]) "a"
        = [Json.num 1] ∧
      find_all identifierSearch (Json.obj [("b", Json.num 7)]) "b" = [Json.num 7] := by
  constructor
  · exact (find_all_spec identifierSearch (Json.obj [("a", Json.arr [Json.num 1])]) "a").2.2.2.1
      [Json.num 1] (by decide) (by decide) rfl
  · exact (find_all_spec identifierSearch (Json.obj [("b", Json.num 7)]) "b").2.2.2.2.1
      (Json.num 7) (by decide) (by decide) rfl
      (by intro ys h; cases h) (by decide)

/-! ### C1: auto-follow guard -/

/-- C1: with auto-follow disabled, addressing index 0 of the list body
`["http://localhost/secret"]` issues a GET to the loopback URL - the list
branch of `__truediv__` follows URL strings unconditionally, checking neither
the auto-follow flag nor the loopback blocklist - while the dictionary branch
on the same value correctly returns the raw string. -/
theorem truediv_list_branch_unguarded :
    truediv (Json.arr [Json.str "http://localhost/secret"]) (PyKey.str "0") false
        = NavResult.followGet "http://localhost/secret" ∧
      truediv (Json.obj [("u", Json.str "http://localhost/secret")]) (PyKey.str "u") false
        = NavResult.value (Json.str "http://localhost/secret") := by
  exact ⟨rfl, rfl⟩

/-! ### C6: paginate termination and cycle guard -/

theorem paginate_length_le (fetch : String → Option Page) (nk : Option String) :
    ∀ (fuel : Nat) (cur : Page) (visited : List String),
      (paginate fetch nk cur fuel visited).length ≤ fuel := by
  intro fuel
  induction fuel with
  | zero => intro cur visited; simp [paginate]
  | succ n ih =>
    intro cur visited
    by_cases h : cur.url ∈ visited
    · simp [paginate, h]
    · simp only [paginate, if_neg h, List.length_cons]
      refine Nat.succ_le_succ ?_
      split
      · simp
      · split
        · simp
        · exact ih _ (cur.url :: visited)

theorem paginate_mem_not_visited (fetch : String → Option Page) (nk : Option String) :
    ∀ (fuel : Nat) (cur : Page) (visited : List String) (p : Page),
      p ∈ paginate fetch nk cur fuel visited → p.url ∉ visited := by
  intro fuel
  induction fuel with
  | zero => intro cur visited p hp; simp [paginate] at hp
  | succ n ih =>
    intro cur visited p hp
    by_cases h : cur.url ∈ visited
    · simp [paginate, h] at hp
    · simp only [paginate, if_neg h, List.mem_cons] at hp
      rcases hp with rfl | hp'
      · exact h
      · revert hp'
        split
        · intro hp'; simp at hp'
        · split
          · intro hp'; simp at hp'
          · intro hp' hmem
            exact ih _ (cur.url :: visited) p hp' (List.mem_cons_of_mem _ hmem)

theorem paginate_urls_nodup (fetch : String → Option Page) (nk : Option String) :
    ∀ (fuel : Nat) (cur : Page) (visited : List String),
      ((paginate fetch nk cur fuel visited).map Page.url).Nodup := by
  intro fuel
  induction fuel with
  | zero => intro cur visited; simp [paginate]
  | succ n ih =>
    intro cur visited
    by_cases h : cur.url ∈ visited
    · simp [paginate, h]
    · simp only [paginate, if_neg h, List.map_cons, List.nodup_cons]
      constructor
      · intro hmem
        rcases List.mem_map.mp hmem with ⟨q, hq, hq'⟩
        revert hq
        split
        · intro hq; simp at hq
        · split
          · intro hq; simp at hq
          · intro hq
            have hnv := paginate_mem_not_visited fetch nk n _ (cur.url :: visited) q hq
            exact hnv (by rw [hq']; exact List.mem_cons_self _ _)
      · split
        · simp
        · split
          · simp
          · exact ih _ (cur.url :: visited)

/-- C6: for every fetch behavior (including a server that always supplies the
same next URL - any constant `fetch`), every starting page, every `max_pages`
bound and every `next_key`, `paginate` yields at most `max_pages` pages, and
no two yielded pages share a URL (the visited-set cycle guard).  The model is
a total function, so the walk always terminates, and a failing continuation
fetch (`fetch = none`, covering network and parse errors) merely ends the
yielded list, leaving the already-produced prefix intact. -/
theorem paginate_bounded_and_cycle_free (fetch : String → Option Page)
    (next_key : Option String) (start : Page) (max_pages : Nat) :
    (paginate fetch next_key start max_pages []).length ≤ max_pages ∧
      ((paginate fetch next_key start max_pages []).map Page.url).Nodup :=
  ⟨paginate_length_le fetch next_key max_pages start [],
   paginate_urls_nodup fetch next_key max_pages start []⟩

/-! ### C2: download cleanup and checksum verification -/

/-- C2: every failure of `download_file` - a request-phase error, an unknown
hash algorithm, or an exception while streaming - leaves no file at the
destination (the partially written file is deleted before the error
propagates); and after a fully successful stream with an expected checksum
supplied, the digest comparison is case-insensitive in the expected checksum
(hashlib hexdigests are lowercase, hypothesis `hlow`): a mismatch deletes the
file and fails with an error naming the expected and actual digests, a match
leaves the streamed bytes in place. -/
theorem download_file_cleanup_and_checksum
    (pre : Option (List Nat)) (chunks : List (List Nat))
    (hexdigest : List (List Nat) → String) (c : String)
    (hc : c ≠ "")
    (hlow : pyLower (hexdigest (fedBlocks chunks)) = hexdigest (fedBlocks chunks)) :
    (∀ msg algKnown streamOk,
      download_file ⟨pre, some msg, algKnown, chunks, streamOk, hexdigest⟩ (some c)
        = (none, .error (.http msg))) ∧
    (∀ streamOk,
      download_file ⟨pre, none, false, chunks, streamOk, hexdigest⟩ (some c)
        = (none, .error .unknownAlgorithm)) ∧
    (download_file ⟨pre, none, true, chunks, false, hexdigest⟩ (some c)
        = (none, .error .streamFailure)) ∧
    (pyLower (hexdigest (fedBlocks chunks)) ≠ pyLower c →
      download_file ⟨pre, none, true, chunks, true, hexdigest⟩ (some c)
        = (none, .error (.checksumMismatch c (hexdigest (fedBlocks chunks))))) ∧
    (pyLower (hexdigest (fedBlocks chunks)) = pyLower c →
      download_file ⟨pre, none, true, chunks, true, hexdigest⟩ (some c)
        = (some (fedBlocks chunks).flatten, .ok ())) := by
  refine ⟨fun msg aK sOk => rfl, ?_, ?_, ?_, ?_⟩
  · intro sOk
    simp [download_file, hc]
  · simp [download_file, hc]
  · intro hne
    rw [hlow] at hne
    simp [download_file, hc, hne]
  · intro heq
    rw [hlow] at heq
    simp [download_file, hc, heq]

/-- C2 witness: a stream of one nonempty block with digest `abc` verifies
against the uppercase expected checksum `ABC` and keeps the file; the same
download with a request-phase failure leaves no file. -/
theorem download_file_cleanup_and_checksum_witness :
    download_file ⟨some [1, 2], none, true, [[104], []], true, fun _ => "abc"⟩
        (some "ABC") = (some [104], .ok ()) ∧
      download_file ⟨some [1, 2], some "boom", true, [[104], []], true, fun _ => "abc"⟩
        (some "ABC") = (none, .error (.http "boom")) := by
  constructor
  · exact (download_file_cleanup_and_checksum (some [1, 2]) [[104], []]
      (fun _ => "abc") "ABC" (by decide) rfl).2.2.2.2 rfl
  · exact (download_file_cleanup_and_checksum (some [1, 2]) [[104], []]
      (fun _ => "abc") "ABC" (by decide) rfl).1 "boom" true true

/-! ### C10: a failed download deletes a pre-existing destination file -/

/-- C10: when a file already exists at the destination and the download fails
before a single byte is written - the request phase raises (status, connection
or timeout error), or the checksum algorithm name is unknown to hashlib - the
`except` handler sees `dest.exists()` true and unlinks it: the pre-existing
file is deleted by a download that never wrote to it. -/
theorem download_file_deletes_preexisting
    (content : List Nat) (chunks : List (List Nat))
    (hexdigest : List (List Nat) → String) (checksum : Option String) :
    (∀ msg algKnown streamOk,
      download_file ⟨some content, some msg, algKnown, chunks, streamOk, hexdigest⟩ checksum
        = (none, .error (.http msg))) ∧
    (∀ c, c ≠ "" →
      download_file ⟨some content, none, false, chunks, true, hexdigest⟩ (some c)
        = (none, .error .unknownAlgorithm)) := by
  refine ⟨fun msg aK sOk => rfl, ?_⟩
  intro c hc
  simp [download_file, hc]

/-- C10 witness: a pre-existing file `[7]` is gone after a connection-refused
request, and likewise after `hashlib.new` rejects the algorithm name. -/
theorem download_file_deletes_preexisting_witness :
    download_file ⟨some [7], some "Failed to connect", true, [], true, fun _ => "d"⟩ none
        = (none, .error (.http "Failed to connect")) ∧
      download_file ⟨some [7], none, false, [], true, fun _ => "d"⟩ (some "deadbeef")
        = (none, .error .unknownAlgorithm) := by
  constructor
  · exact (download_file_deletes_preexisting [7] [] (fun _ => "d") none).1
      "Failed to connect" true true
  · exact (download_file_deletes_preexisting [7] [] (fun _ => "d") (some "deadbeef")).2
      "deadbeef" (by decide)

/-! ### String-containment helper lemmas -/

theorem isPrefixOf_append_self (m c : List Char) : m.isPrefixOf (m ++ c) = true := by
  induction m with
  | nil => simp [List.isPrefixOf]
  | cons a as ih => simp [List.isPrefixOf, ih]

theorem isPrefixOf_extend (m x y : List Char) (h : m.isPrefixOf x = true) :
    m.isPrefixOf (x ++ y) = true := by
  induction m generalizing x with
  | nil => simp [List.isPrefixOf]
  | cons a as ih =>
    cases x with
    | nil => simp [List.isPrefixOf] at h
    | cons b bs =>
      simp only [List.cons_append]
      simp only [List.isPrefixOf, Bool.and_eq_true, beq_iff_eq] at h ⊢
      exact ⟨h.1, ih bs h.2⟩

theorem strContainsL_self_append (m c : List Char) : strContainsL (m ++ c) m = true := by
  unfold strContainsL
  refine List.any_eq_true.mpr ⟨0, List.mem_range.mpr (Nat.succ_pos _), ?_⟩
  simp [isPrefixOf_append_self m c]

theorem strContainsL_refl (m : List Char) : strContainsL m m = true := by
  simpa using strContainsL_self_append m []

theorem strContainsL_append_right (a b m : List Char) (h : strContainsL b m = true) :
    strContainsL (a ++ b) m = true := by
  unfold strContainsL at h ⊢
  rcases List.any_eq_true.mp h with ⟨i, hi, hpre⟩
  have hi' : i < b.length + 1 := List.mem_range.mp hi
  refine List.any_eq_true.mpr ⟨a.length + i, List.mem_range.mpr ?_, ?_⟩
  · simp only [List.length_append]; omega
  · rw [List.drop_append]; exact hpre

theorem strContainsL_append_left (a b m : List Char) (h : strContainsL a m = true) :
    strContainsL (a ++ b) m = true := by
  unfold strContainsL at h ⊢
  rcases List.any_eq_true.mp h with ⟨i, hi, hpre⟩
  have hi' : i < a.length + 1 := List.mem_range.mp hi
  refine List.any_eq_true.mpr ⟨i, List.mem_range.mpr ?_, ?_⟩
  · simp only [List.length_append]; omega
  · rw [List.drop_append_of_le_length (by omega)]
    exact isPrefixOf_extend _ _ _ hpre

theorem string_toList_append (a b : String) : (a ++ b).toList = a.toList ++ b.toList := by
  cases a; cases b; rfl

theorem strContains_append_right (a b m : String) (h : strContains b m = true) :
    strContains (a ++ b) m = true := by
  unfold strContains at h ⊢
  rw [string_toList_append]
  exact strContainsL_append_right _ _ _ h

theorem strContains_append_left (a b m : String) (h : strContains a m = true) :
    strContains (a ++ b) m = true := by
  unfold strContains at h ⊢
  rw [string_toList_append]
  exact strContainsL_append_left _ _ _ h

theorem strContains_refl (m : String) : strContains m m = true :=
  strContainsL_refl m.toList

/-! ### C5: error classification -/

/-- C5 counterexample: a 401 response from `api.example.com` produces the
message "Authentication failed for api.example.com. Check your API
credentials.", which does not contain the status code `401` - contradicting
the claim that the message incorporates the status code. -/
theorem error_message_omits_status_code_counterexample :
    _get_helpful_error_message ⟨401, [], "", none⟩ "https://api.example.com/users"
        "api.example.com"
      = "Authentication failed for api.example.com. Check your API credentials." ∧
      strContains
        (_get_helpful_error_message ⟨401, [], "", none⟩ "https://api.example.com/users"
          "api.example.com") "401" = false := by
  constructor
  · rfl
  · decide

/-- C5 amended: the executor raises an HTTP status error iff the transport
response status is in 400..599 (given no cache hit); connection failures and
timeouts are raised as the distinct ConnectionError / TimeoutError kinds; the
error message incorporates the hostname for every status except 404, where it
incorporates the full URL instead; a JSON object body with an
error/message/error_description/detail field has that field's value
incorporated; the numeric status code appears in the message only for 4xx
statuses without a specific template (not 401/403/404/429 and below 500). -/
theorem http_request_error_classification (verb : String) (url : UrlObj)
    (store : CacheStore) (now : Rat) (resp : TResp)
    (hs : url.scheme = "http" ∨ url.scheme = "https")
    (hcc : url.cache_config = none) :
    ((∃ m, (http_request verb url store (.ok resp) now).result
        = .error (.httpStatus m)) ↔ 400 ≤ resp.status ∧ resp.status < 600) ∧
    ((http_request verb url store (.error .connection) now).result
        = .error (.connectionError ("Failed to connect to " ++ url.render))) ∧
    ((http_request verb url store (.error .timeout) now).result
        = .error (.timeoutError ("Request to " ++ url.render ++ " timed out"))) ∧
    (resp.status ≠ 404 →
      strContains (_get_helpful_error_message resp url.render url.hostname)
        url.hostname = true) ∧
    (resp.status = 404 →
      strContains (_get_helpful_error_message resp url.render url.hostname)
        url.render = true) ∧
    (∀ fields t, resp.jsonBody = some (Json.obj fields) →
      firstDetail errorDetailKeys fields = some (Json.str t) →
      strContains (_get_helpful_error_message resp url.render url.hostname) t = true) ∧
    (400 ≤ resp.status → resp.status < 500 →
      resp.status ∉ ([401, 403, 404, 429] : List Nat) →
      strContains (_get_helpful_error_message resp url.render url.hostname)
        (toString resp.status) = true) := by
  refine ⟨?_, ?_, ?_, ?_, ?_, ?_, ?_⟩
  · constructor
    · rintro ⟨m, hm⟩
      by_contra hcond
      simp only [http_request, hcc, if_pos hs, if_neg hcond] at hm
      exact Except.noConfusion hm
    · intro hcond
      refine ⟨_get_helpful_error_message resp url.render url.hostname, ?_⟩
      simp only [http_request, hcc, if_pos hs, if_pos hcond]
  · simp only [http_request, hcc, if_pos hs]
  · simp only [http_request, hcc, if_pos hs]
  · intro h404
    unfold _get_helpful_error_message
    by_cases h1 : resp.status = 401
    · rw [if_pos (by simp [h1])]
      exact strContains_append_left _ _ _ (strContains_append_left _ _ _
        (strContains_append_right _ _ _ (strContains_refl _)))
    · rw [if_neg (by simp [h1])]
      by_cases h2 : resp.status = 403
      · rw [if_pos (by simp [h2])]
        exact strContains_append_left _ _ _ (strContains_append_left _ _ _
          (strContains_append_right _ _ _ (strContains_refl _)))
      · rw [if_neg (by simp [h2])]
        rw [if_neg (by simp [h404])]
        by_cases h4 : resp.status = 429
        · rw [if_pos (by simp [h4])]
          exact strContains_append_left _ _ _ (strContains_append_left _ _ _
            (strContains_append_left _ _ _ (strContains_append_left _ _ _
              (strContains_append_right _ _ _ (strContains_refl _)))))
        · rw [if_neg (by simp [h4])]
          by_cases h5 : 500 ≤ resp.status
          · rw [if_pos h5]
            exact strContains_append_left _ _ _ (strContains_append_left _ _ _
              (strContains_append_right _ _ _ (strContains_refl _)))
          · rw [if_neg h5]
            exact strContains_append_left _ _ _ (strContains_append_right _ _ _
              (strContains_refl _))
  · intro h404
    unfold _get_helpful_error_message
    rw [if_neg (by simp [h404]), if_neg (by simp [h404]), if_pos (by simp [h404])]
    exact strContains_append_left _ _ _ (strContains_append_right _ _ _
      (strContains_refl _))
  · intro fields t hjson hfd
    have hdet : errorDetails resp.jsonBody = " - " ++ t := by
      simp [errorDetails, hjson, hfd, pyStr]
    unfold _get_helpful_error_message
    rw [hdet]
    have hin : strContains (" - " ++ t) t = true :=
      strContains_append_right _ _ _ (strContains_refl _)
    by_cases h1 : resp.status = 401
    · rw [if_pos (by simp [h1])]
      exact strContains_append_left _ _ _ (strContains_append_right _ _ _ hin)
    · rw [if_neg (by simp [h1])]
      by_cases h2 : resp.status = 403
      · rw [if_pos (by simp [h2])]
        exact strContains_append_left _ _ _ (strContains_append_right _ _ _ hin)
      · rw [if_neg (by simp [h2])]
        by_cases h3 : resp.status = 404
        · rw [if_pos (by simp [h3])]
          exact strContains_append_right _ _ _ hin
        · rw [if_neg (by simp [h3])]
          by_cases h4 : resp.status = 429
          · rw [if_pos (by simp [h4])]
            exact strContains_append_right _ _ _ hin
          · rw [if_neg (by simp [h4])]
            by_cases h5 : 500 ≤ resp.status
            · rw [if_pos h5]
              exact strContains_append_left _ _ _ (strContains_append_right _ _ _ hin)
            · rw [if_neg h5]
              exact strContains_append_right _ _ _ hin
  · intro hlo hhi hnotin
    simp only [List.mem_cons, List.mem_singleton, not_or] at hnotin
    obtain ⟨h1, h2, h3, h4⟩ := hnotin
    unfold _get_helpful_error_message
    rw [if_neg (by simp [h1]), if_neg (by simp [h2]), if_neg (by simp [h3]),
      if_neg (by simp [h4]), if_neg (by omega)]
    exact strContains_append_left _ _ _ (strContains_append_left _ _ _
      (strContains_append_left _ _ _ (strContains_append_right _ _ _
        (strContains_refl _))))

/-- C5 amended, witness: a 503 response from `api.example.com` with body
`{"error": "down"}` raises an HTTP status error, and the message incorporates
both the hostname and the extracted error field. -/
theorem http_request_error_classification_witness :
    (∃ m, (http_request "get"
        ⟨"https", "https://api.example.com/users", "api.example.com", none, none, 0, false⟩
        [] (.ok ⟨503, [], "", some (Json.obj [("error", Json.str "down")])⟩) 0).result
          = .error (.httpStatus m)) ∧
      strContains
        (_get_helpful_error_message ⟨503, [], "", some (Json.obj [("error", Json.str "down")])⟩
          "https://api.example.com/users" "api.example.com") "down" = true ∧
      strContains
        (_get_helpful_error_message ⟨503, [], "", some (Json.obj [("error", Json.str "down")])⟩
          "https://api.example.com/users" "api.example.com") "api.example.com" = true := by
  refine ⟨?_, ?_, ?_⟩
  · exact (http_request_error_classification "get"
      ⟨"https", "https://api.example.com/users", "api.example.com", none, none, 0, false⟩
      [] 0 ⟨503, [], "", some (Json.obj [("error", Json.str "down")])⟩
      (Or.inr rfl) rfl).1.mpr (by decide)
  · exact (http_request_error_classification "get"
      ⟨"https", "https://api.example.com/users", "api.example.com", none, none, 0, false⟩
      [] 0 ⟨503, [], "", some (Json.obj [("error", Json.str "down")])⟩
      (Or.inr rfl) rfl).2.2.2.2.2.1 [("error", Json.str "down")] "down" rfl rfl
  · exact (http_request_error_classification "get"
      ⟨"https", "https://api.example.com/users", "api.example.com", none, none, 0, false⟩
      [] 0 ⟨503, [], "", some (Json.obj [("error", Json.str "down")])⟩
      (Or.inr rfl) rfl).2.2.2.1 (by decide)

/-! ### C3: cache policy -/

/-- C3: when a TTL is configured and an unexpired entry exists for
(method, URL), `http_request` returns the cached status/headers/body directly:
the store, the last-request timestamp are untouched and *no* event occurs - no
transport call, no retry machinery, no rate-limit wait, no log line.  When the
entry is absent or expired, a transport call is issued, and a final 2xx
response is stored back into the cache under (method, canonical URL) with the
capture timestamp.  (`CacheConfig.get`/`set` are modelled from the spec:
webpath/cache.py is not under src/.) -/
theorem http_request_cache_policy (verb : String) (url : UrlObj) (store : CacheStore)
    (transport : Except TransportErr TResp) (now : Rat) (cfg : CacheConfig)
    (hs : url.scheme = "http" ∨ url.scheme = "https")
    (hcc : url.cache_config = some cfg) :
    (∀ e, cfg.get store now verb url.render = some e →
      http_request verb url store transport now
        = ⟨.ok ⟨e.status_code, e.headers, e.content, true⟩, store, [],
           url.last_request_time⟩) ∧
    (cfg.get store now verb url.render = none →
      Event.transportCall ∈ (http_request verb url store transport now).events ∧
      (∀ resp, transport = .ok resp → 200 ≤ resp.status → resp.status < 300 →
        (http_request verb url store transport now).store.lookup (verb, url.render)
          = some ⟨resp.status, resp.headers, resp.body, url.render, now⟩)) := by
  constructor
  · intro e he
    simp [http_request, hcc, if_pos hs, he]
  · intro hmiss
    constructor
    · cases transport with
      | error te => cases te <;> simp [http_request, hcc, if_pos hs, hmiss]
      | ok resp =>
        by_cases hst : 400 ≤ resp.status ∧ resp.status < 600 <;>
          simp [http_request, hcc, if_pos hs, hmiss, hst]
    · intro resp htr h2 h3
      subst htr
      have hst : ¬ (400 ≤ resp.status ∧ resp.status < 600) := by omega
      have hcw : url.cache_config.isSome ∧ 200 ≤ resp.status ∧ resp.status < 300 :=
        ⟨by simp [hcc], h2, h3⟩
      simp [http_request, hcc, if_pos hs, hmiss, hst, hcw, CacheConfig.set, List.lookup]

/-- C3 witness: with TTL 300 and an entry captured at time 0, a request at
time 10 returns the cached body `cached`, leaves the store untouched, and
produces no event at all (no transport call). -/
theorem http_request_cache_policy_witness :
    http_request "get"
        ⟨"https", "https://api.example.com/users", "api.example.com",
         some ⟨300⟩, none, 0, false⟩
        [(("get", "https://api.example.com/users"),
          ⟨200, [], "cached", "https://api.example.com/users", 0⟩)]
        (.ok ⟨200, [], "fresh", none⟩) 10
      = ⟨.ok ⟨200, [], "cached", true⟩,
         [(("get", "https://api.example.com/users"),
           ⟨200, [], "cached", "https://api.example.com/users", 0⟩)],
         [], 0⟩ := by
  exact (http_request_cache_policy "get"
    ⟨"https", "https://api.example.com/users", "api.example.com",
     some ⟨300⟩, none, 0, false⟩
    [(("get", "https://api.example.com/users"),
      ⟨200, [], "cached", "https://api.example.com/users", 0⟩)]
    (.ok ⟨200, [], "fresh", none⟩) 10 ⟨300⟩ (Or.inr rfl) rfl).1
    ⟨200, [], "cached", "https://api.example.com/users", 0⟩
    (by norm_num [CacheConfig.get, List.lookup])

/-! ### C4: rate limiting -/

/-- C4 counterexample: with a rate limit of 2 requests/second, a last-request
timestamp of 0 and the clock at 1/4, the event trace of a successful call is
[transportCall, rateWait 1/4, timestampUpdate]: no rate-limit wait and no
timestamp update happen before the network call - the sleep and the timestamp
update follow it - contradicting the claim that the executor blocks *before*
performing the network call and updates the timestamp before the call. -/
theorem http_request_wait_after_call_counterexample :
    (http_request "get"
        ⟨"http", "http://api.example.com/a", "api.example.com", none, some 2, 0, false⟩
        [] (.ok ⟨200, [], "ok", none⟩) (1/4)).events
      = [Event.transportCall, Event.rateWait (1/4), Event.timestampUpdate] ∧
    eventBefore isRateWait isTransportCall
      (http_request "get"
        ⟨"http", "http://api.example.com/a", "api.example.com", none, some 2, 0, false⟩
        [] (.ok ⟨200, [], "ok", none⟩) (1/4)).events = false ∧
    eventBefore isTimestampUpdate isTransportCall
      (http_request "get"
        ⟨"http", "http://api.example.com/a", "api.example.com", none, some 2, 0, false⟩
        [] (.ok ⟨200, [], "ok", none⟩) (1/4)).events = false ∧
    eventBefore isTransportCall isRateWait
      (http_request "get"
        ⟨"http", "http://api.example.com/a", "api.example.com", none, some 2, 0, false⟩
        [] (.ok ⟨200, [], "ok", none⟩) (1/4)).events = true := by
  refine ⟨?_, ?_, ?_, ?_⟩ <;>
    norm_num [http_request, eventBefore, isRateWait, isTransportCall, isTimestampUpdate]

/-- C4 amended: when a per-second rate limit is configured, for *every*
transport outcome no rate-limit wait and no timestamp update ever precedes
the network call; a failed request - a transport error or a 4xx/5xx status -
raises before reaching the rate-limit block, so its trace is exactly the
transport call and the stored timestamp is untouched; and when the call
succeeds, the executor sleeps *after* it (and before returning) for exactly
`1/limit - elapsed` seconds whenever less than `1/limit` has elapsed since
the stored last-request timestamp, then updates the timestamp to the
post-sleep clock (no wait and a plain clock update when enough time has
elapsed). -/
theorem http_request_rate_limit_after_call (verb : String) (url : UrlObj)
    (store : CacheStore) (resp : TResp) (now : Rat) (rl : Rat)
    (hs : url.scheme = "http" ∨ url.scheme = "https")
    (hcc : url.cache_config = none)
    (hrl : url.rate_limit = some rl) (hrl0 : rl ≠ 0) :
    (∀ t : Except TransportErr TResp,
      eventBefore isRateWait isTransportCall
          (http_request verb url store t now).events = false ∧
        eventBefore isTimestampUpdate isTransportCall
          (http_request verb url store t now).events = false) ∧
    (∀ te : TransportErr,
      (http_request verb url store (.error te) now).events = [Event.transportCall] ∧
        (http_request verb url store (.error te) now).last_request_time
          = url.last_request_time) ∧
    (400 ≤ resp.status ∧ resp.status < 600 →
      (http_request verb url store (.ok resp) now).events = [Event.transportCall] ∧
        (http_request verb url store (.ok resp) now).last_request_time
          = url.last_request_time) ∧
    (resp.status < 400 →
      eventBefore isTransportCall isTimestampUpdate
          (http_request verb url store (.ok resp) now).events = true ∧
        (now - url.last_request_time < 1 / rl →
          Event.rateWait (1 / rl - (now - url.last_request_time))
              ∈ (http_request verb url store (.ok resp) now).events ∧
            (http_request verb url store (.ok resp) now).last_request_time
              = now + (1 / rl - (now - url.last_request_time))) ∧
        (¬ now - url.last_request_time < 1 / rl →
          (∀ d, Event.rateWait d ∉ (http_request verb url store (.ok resp) now).events) ∧
            (http_request verb url store (.ok resp) now).last_request_time = now)) := by
  refine ⟨?_, ?_, ?_, ?_⟩
  · intro t
    cases t with
    | error te =>
      cases te <;>
        exact ⟨by simp [http_request, hcc, if_pos hs, eventBefore, isRateWait,
                isTransportCall],
               by simp [http_request, hcc, if_pos hs, eventBefore, isTimestampUpdate,
                isTransportCall]⟩
    | ok r =>
      by_cases hst : 400 ≤ r.status ∧ r.status < 600
      · exact ⟨by simp [http_request, hcc, if_pos hs, hst, eventBefore, isRateWait,
                isTransportCall],
               by simp [http_request, hcc, if_pos hs, hst, eventBefore, isTimestampUpdate,
                isTransportCall]⟩
      · by_cases hel : now - url.last_request_time < 1 / rl <;>
          rw [one_div] at hel <;>
          cases hlog : url.enable_logging <;>
            exact ⟨by simp [http_request, hcc, if_pos hs, hst, hrl, hrl0, hel, hlog,
                    eventBefore, isRateWait, isTransportCall],
                   by simp [http_request, hcc, if_pos hs, hst, hrl, hrl0, hel, hlog,
                    eventBefore, isTimestampUpdate, isTransportCall]⟩
  · intro te
    cases te <;>
      exact ⟨by simp [http_request, hcc, if_pos hs],
             by simp [http_request, hcc, if_pos hs]⟩
  · intro hst
    exact ⟨by simp [http_request, hcc, if_pos hs, hst],
           by simp [http_request, hcc, if_pos hs, hst]⟩
  · intro hst
    have hst6 : ¬ (400 ≤ resp.status ∧ resp.status < 600) := by omega
    refine ⟨?_, ?_, ?_⟩
    · by_cases hel : now - url.last_request_time < 1 / rl <;>
        rw [one_div] at hel <;>
        cases hlog : url.enable_logging <;>
          simp [http_request, hcc, if_pos hs, hst6, hrl, hrl0, hel, hlog,
            eventBefore, isTransportCall, isTimestampUpdate]
    · intro hel
      rw [one_div] at hel
      cases hlog : url.enable_logging <;>
        simp [http_request, hcc, if_pos hs, hst6, hrl, hrl0, hel, hlog]
    · intro hel
      rw [one_div] at hel
      constructor
      · intro d
        cases hlog : url.enable_logging <;>
          simp [http_request, hcc, if_pos hs, hst6, hrl, hrl0, hel, hlog]
      · cases hlog : url.enable_logging <;>
          simp [http_request, hcc, if_pos hs, hst6, hrl, hrl0, hel, hlog]

/-- C4 amended, witness: rate limit 2/s, last request at 0, clock 1/4: a
successful call's trace contains a rateWait of 1/4 second (= 1/2 - 1/4) after
the call and the stored timestamp becomes 1/2, while a connection-refused call
produces only the transport call and leaves the timestamp at 0. -/
theorem http_request_rate_limit_after_call_witness :
    (Event.rateWait (1 / 2 - ((1 / 4 : Rat) - 0))
        ∈ (http_request "get"
            ⟨"http", "http://h/a", "h", none, some 2, 0, false⟩
            [] (.ok ⟨200, [], "ok", none⟩) (1 / 4)).events ∧
      (http_request "get"
          ⟨"http", "http://h/a", "h", none, some 2, 0, false⟩
          [] (.ok ⟨200, [], "ok", none⟩) (1 / 4)).last_request_time
        = 1 / 4 + (1 / 2 - ((1 / 4 : Rat) - 0))) ∧
    ((http_request "get"
        ⟨"http", "http://h/a", "h", none, some 2, 0, false⟩
        [] (.error .connection) (1 / 4)).events = [Event.transportCall] ∧
      (http_request "get"
          ⟨"http", "http://h/a", "h", none, some 2, 0, false⟩
          [] (.error .connection) (1 / 4)).last_request_time = 0) := by
  constructor
  · exact ((http_request_rate_limit_after_call "get"
      ⟨"http", "http://h/a", "h", none, some 2, 0, false⟩
      [] ⟨200, [], "ok", none⟩ (1 / 4) 2
      (Or.inl rfl) rfl rfl (by norm_num)).2.2.2 (by decide)).2.1 (by norm_num)
  · exact (http_request_rate_limit_after_call "get"
      ⟨"http", "http://h/a", "h", none, some 2, 0, false⟩
      [] ⟨200, [], "ok", none⟩ (1 / 4) 2
      (Or.inl rfl) rfl rfl (by norm_num)).2.1 TransportErr.connection

/-! ### C9: URL join -/

/-- C9 counterexample: joining the segment `b//c` onto the path `/a` yields
the path `/a/b//c`, which contains a double slash - `quote` keeps `/` safe, so
slashes inside a segment survive percent-encoding, contradicting the claim
that every sequence of joins yields a path with no double slashes. -/
theorem truediv_double_slash_counterexample :
    WebPath.truediv "/a" "b//c" = "/a/b//c" ∧
      hasDoubleSlash (WebPath.truediv "/a" "b//c") = true := by
  exact ⟨rfl, by decide⟩

theorem headIsSlash_append (x y : List Char) (hx : x ≠ []) :
    headIsSlashL (x ++ y) = headIsSlashL x := by
  cases x with
  | nil => exact absurd rfl hx
  | cons a as => rfl

theorem headIsSlash_dropSlash (l : List Char) :
    headIsSlashL (l.dropWhile (· == '/')) = false := by
  induction l with
  | nil => rfl
  | cons c cs ih =>
    rw [List.dropWhile_cons]
    by_cases h : c = '/'
    · simp [h, ih]
    · simp [h, headIsSlashL]

theorem lastIsSlash_rstrip (l : List Char) : lastIsSlashL (rstripSlashL l) = false := by
  unfold lastIsSlashL rstripSlashL
  rw [List.reverse_reverse]
  exact headIsSlash_dropSlash _

theorem rstrip_eq_self (l : List Char) (h : lastIsSlashL l = false) :
    rstripSlashL l = l := by
  unfold lastIsSlashL at h
  unfold rstripSlashL
  cases hr : l.reverse with
  | nil =>
    have hl : l = [] := List.reverse_eq_nil_iff.mp hr
    simp [hl]
  | cons c cs =>
    rw [hr] at h
    have hc : (c == '/') = false := h
    rw [List.dropWhile_cons]
    simp only [hc, Bool.false_eq_true, if_false]
    rw [← hr, List.reverse_reverse]

theorem lastIsSlash_append (x y : List Char) (hy : y ≠ []) :
    lastIsSlashL (x ++ y) = lastIsSlashL y := by
  unfold lastIsSlashL
  rw [List.reverse_append]
  exact headIsSlash_append _ _ (by simpa using hy)

theorem lastIsSlash_cons (a : Char) (l : List Char) (hl : l ≠ []) :
    lastIsSlashL (a :: l) = lastIsSlashL l :=
  lastIsSlash_append [a] l hl

theorem hasDouble_slash_cons (y : List Char) (hy : hasDoubleSlashL y = false)
    (hsy : headIsSlashL y = false) : hasDoubleSlashL ('/' :: y) = false := by
  cases y with
  | nil => rfl
  | cons b bs =>
    have hb : (b == '/') = false := hsy
    simp [hasDoubleSlashL, hb, hy]

theorem hasDouble_sep : ∀ (x y : List Char), hasDoubleSlashL x = false →
    hasDoubleSlashL y = false → lastIsSlashL x = false → headIsSlashL y = false →
    hasDoubleSlashL (x ++ '/' :: y) = false := by
  intro x
  induction x with
  | nil =>
    intro y _ hy _ hsy
    exact hasDouble_slash_cons y hy hsy
  | cons a as ih =>
    intro y hx hy hex hsy
    cases as with
    | nil =>
      have ha : (a == '/') = false := by
        simpa [lastIsSlashL, headIsSlashL] using hex
      have h1 := hasDouble_slash_cons y hy hsy
      simp [hasDoubleSlashL, ha, h1]
    | cons b bs =>
      have hx' : (a == '/' && b == '/') = false ∧ hasDoubleSlashL (b :: bs) = false := by
        simpa [hasDoubleSlashL, Bool.or_eq_false_iff] using hx
      have hex' : lastIsSlashL (b :: bs) = false := by
        rw [← lastIsSlash_cons a (b :: bs) (by simp)]
        exact hex
      have hrec := ih y hx'.2 hy hex' hsy
      simp only [List.cons_append, hasDoubleSlashL, Bool.or_eq_false_iff]
      constructor
      · exact hx'.1
      · simpa using hrec

theorem utf8Bytes_ne_nil (n : Nat) : utf8Bytes n ≠ [] := by
  unfold utf8Bytes
  split
  · simp
  · split
    · simp
    · split <;> simp

theorem quoteChar_ne_nil (c : Char) : quoteChar c ≠ [] := by
  unfold quoteChar
  split
  · simp
  · cases hutf : utf8Bytes c.toNat with
    | nil => exact absurd hutf (utf8Bytes_ne_nil _)
    | cons b bs => simp [hutf, List.flatMap_cons]

theorem headIsSlash_quoteChar (c : Char) (hc : (c == '/') = false) :
    headIsSlashL (quoteChar c) = false := by
  unfold quoteChar
  by_cases h : (quoteSafe c || c == '/') = true
  · rw [if_pos h]
    exact hc
  · rw [if_neg h]
    cases hutf : utf8Bytes c.toNat with
    | nil => exact absurd hutf (utf8Bytes_ne_nil _)
    | cons b bs => simp [hutf, List.flatMap_cons, headIsSlashL]

theorem headIsSlash_quoteL (l : List Char) :
    headIsSlashL (quoteL (lstripSlashL l)) = false := by
  induction l with
  | nil => rfl
  | cons c cs ih =>
    unfold lstripSlashL at ih ⊢
    rw [List.dropWhile_cons]
    by_cases h : c = '/'
    · simp only [h, beq_self_eq_true, if_true]
      exact ih
    · have hc : (c == '/') = false := by simp [h]
      rw [hc]
      simp only [Bool.false_eq_true, if_false]
      unfold quoteL
      rw [List.flatMap_cons]
      rw [headIsSlash_append _ _ (quoteChar_ne_nil c)]
      exact headIsSlash_quoteChar c hc

theorem toList_ne_nil (q : String) (h : q ≠ "") : q.toList ≠ [] := by
  intro hl
  apply h
  cases q with
  | mk l =>
    have hl' : l = [] := hl
    subst hl'
    rfl

theorem strAppend_assoc (a b c : String) : a ++ b ++ c = a ++ (b ++ c) := by
  cases a with
  | mk a =>
    cases b with
    | mk b =>
      cases c with
      | mk c =>
        show String.mk (a ++ b ++ c) = String.mk (a ++ (b ++ c))
        exact congrArg String.mk (List.append_assoc a b c)

theorem concat_toList (x q : String) :
    (x ++ "/" ++ q).toList = x.toList ++ '/' :: q.toList := by
  rw [string_toList_append, string_toList_append, List.append_assoc]
  rfl

theorem hasDouble_concat_str (x q : String)
    (hx : hasDoubleSlash (rstripSlash x) = false)
    (hq : hasDoubleSlash q = false) (hqh : headIsSlashL q.toList = false) :
    hasDoubleSlash (rstripSlash x ++ "/" ++ q) = false := by
  unfold hasDoubleSlash
  rw [concat_toList]
  exact hasDouble_sep _ _ hx hq (lastIsSlash_rstrip _) hqh

theorem lastIsSlash_concat_str (x q : String) (hq0 : q ≠ "")
    (hq3 : lastIsSlashL q.toList = false) :
    lastIsSlashL (x ++ "/" ++ q).toList = false := by
  rw [concat_toList]
  rw [lastIsSlash_append _ _ (by simp)]
  rw [lastIsSlash_cons '/' q.toList (toList_ne_nil q hq0)]
  exact hq3

theorem rstrip_eq_self_str (q : String) (h : lastIsSlashL q.toList = false) :
    rstripSlash q = q := by
  cases q with
  | mk l => exact congrArg String.mk (rstrip_eq_self l h)

theorem headIsSlash_quote_str (s : String) :
    headIsSlashL (quote (lstripSlash s)).toList = false :=
  headIsSlash_quoteL s.toList

theorem truediv_formula (p s : String) :
    WebPath.truediv p s = rstripSlash p ++ "/" ++ quote (lstripSlash s) := by
  unfold WebPath.truediv
  by_cases h : p = ""
  · subst h; rfl
  · rw [if_pos h]

theorem joinSlash_cons (q : String) (qs : List String) (h : qs ≠ []) :
    joinSlash (q :: qs) = q ++ "/" ++ joinSlash qs := by
  cases qs with
  | nil => exact absurd rfl h
  | cons b t => rfl

/-- C9 amended: each `join(segment)` appends exactly one `/` plus the
percent-encoded segment (leading slashes stripped, `/` kept unencoded by
quote's default safe set) to the previous path stripped of trailing slashes;
consequently, for any base path whose trailing-slash-stripped form has no
double slash and any nonempty sequence of segments whose encoded forms are
nonempty, free of double slashes and do not end in a slash, the resulting
path is exactly the slash-normalized concatenation (components joined by
single slashes) and contains no double slash.  A segment whose encoded form
contains `//` instead survives verbatim (see the counterexample). -/
theorem joinAll_normalized (p : String) (segs : List String)
    (hp : hasDoubleSlash (rstripSlash p) = false)
    (hne : segs ≠ [])
    (hq : ∀ s ∈ segs, quote (lstripSlash s) ≠ "" ∧
          hasDoubleSlash (quote (lstripSlash s)) = false ∧
          lastIsSlashL (quote (lstripSlash s)).toList = false) :
    joinAll p segs
      = rstripSlash p ++ "/" ++ joinSlash (segs.map (fun s => quote (lstripSlash s)))
    ∧ hasDoubleSlash (joinAll p segs) = false := by
  induction segs generalizing p with
  | nil => exact absurd rfl hne
  | cons s rest ih =>
    obtain ⟨hq1, hq2, hq3⟩ := hq s (List.mem_cons_self _ _)
    have hstep := truediv_formula p s
    have hdouble : hasDoubleSlash (WebPath.truediv p s) = false := by
      rw [hstep]
      exact hasDouble_concat_str p _ hp hq2 (headIsSlash_quote_str s)
    cases rest with
    | nil =>
      refine ⟨?_, hdouble⟩
      simpa [joinAll, joinSlash] using hstep
    | cons s2 rest2 =>
      have hlast : lastIsSlashL (WebPath.truediv p s).toList = false := by
        rw [hstep]
        exact lastIsSlash_concat_str _ _ hq1 hq3
      have hrs : rstripSlash (WebPath.truediv p s) = WebPath.truediv p s :=
        rstrip_eq_self_str _ hlast
      have hp' : hasDoubleSlash (rstripSlash (WebPath.truediv p s)) = false := by
        rw [hrs]; exact hdouble
      have ihh := ih (WebPath.truediv p s) hp' (by simp)
        (fun t ht => hq t (List.mem_cons_of_mem _ ht))
      have hfold : joinAll p (s :: s2 :: rest2)
          = joinAll (WebPath.truediv p s) (s2 :: rest2) := rfl
      have hr2 : joinSlash (List.map (fun t => quote (lstripSlash t)) (s :: s2 :: rest2))
          = quote (lstripSlash s) ++ "/"
            ++ joinSlash (List.map (fun t => quote (lstripSlash t)) (s2 :: rest2)) := by
        rw [List.map_cons, List.map_cons]
        rfl
      constructor
      · rw [hfold, ihh.1, hrs, hstep, hr2]
        simp [strAppend_assoc]
      · rw [hfold]
        exact ihh.2

/-- C9 amended, witness: joining `users` then `42` onto `/api` gives
`/api/users/42`, the normalized concatenation, with no double slash. -/
theorem joinAll_normalized_witness :
    (joinAll "/api" ["users", "42"]
        = rstripSlash "/api" ++ "/"
          ++ joinSlash (["users", "42"].map (fun s => quote (lstripSlash s)))
      ∧ hasDoubleSlash (joinAll "/api" ["users", "42"]) = false)
    ∧ joinAll "/api" ["users", "42"] = "/api/users/42" := by
  constructor
  · exact joinAll_normalized "/api" ["users", "42"] (by decide) (by decide) (by decide)
  · rfl

end Webpath
